import Mathlib

/-!
Verification of the Jenkins MCP server (TypeScript) against its
natural-language specification.  The relevant parts of the program are
shallowly embedded below: pure response-shaping functions become Lean
functions over explicit data (JS numbers are modelled as `Int`/`Rat`,
nullable fields as `Option`, line-oriented text as `List String`), and the
claims of the specification are settled as theorems about these
definitions.
-/

/-! ## Status classifier (`JenkinsClient.colorToStatus`) -/

/-- The closed status vocabulary of `JobSummary["status"]` in `types.ts`. -/
inductive JobStatus where
  | success
  | failure
  | unstable
  | aborted
  | not_built
  | building
  | unknown
deriving DecidableEq, Repr

/-- Replace the leftmost occurrence of `pat` in a character list by `repl`,
scanning left to right; if `pat` never occurs the list is unchanged. -/
def replaceFirstAux (pat repl : List Char) : List Char → List Char
  | [] => []
  | c :: s =>
    if pat.isPrefixOf (c :: s) then repl ++ (c :: s).drop pat.length
    else c :: replaceFirstAux pat repl s

/-- JS `String.prototype.replace(pat, repl)` with a string argument replaces
only the first (leftmost) occurrence of `pat`. -/
def replaceFirst (s pat repl : String) : String :=
  String.mk (replaceFirstAux pat.data repl.data s.data)

/-- JS `String.prototype.endsWith`, embedded on the character list. -/
def endsWithStr (s sfx : String) : Bool :=
  sfx.data.isSuffixOf s.data

/-- `JenkinsClient.colorToStatus` (jenkins-client, lines 525-540):
empty color gives `unknown`; the `_anime` suffix marks an in-progress build;
otherwise the base color (first `_anime` occurrence removed) is looked up in
a fixed table defaulting to `unknown`. -/
def colorToStatus (color : String) : JobStatus :=
  if color = "" then JobStatus.unknown
  else
    let baseColor := replaceFirst color "_anime" ""
    if endsWithStr color "_anime" then JobStatus.building
    else
      match baseColor with
      | "blue" => JobStatus.success
      | "red" => JobStatus.failure
      | "yellow" => JobStatus.unstable
      | "aborted" => JobStatus.aborted
      | "notbuilt" => JobStatus.not_built
      | "disabled" => JobStatus.not_built
      | _ => JobStatus.unknown

/-- C4: every color token ending in the in-progress suffix `_anime` is
classified as `building` regardless of its base color; the base tokens map
through the fixed table (`blue`/`red`/`yellow`/`aborted`/`notbuilt`/`disabled`);
the empty token and every unrecognized token yield `unknown`; and the
classifier is total into the closed status vocabulary. -/
theorem C4_status_classifier :
    (∀ c : String, colorToStatus (c ++ "_anime") = JobStatus.building) ∧
    colorToStatus "blue" = JobStatus.success ∧
    colorToStatus "red" = JobStatus.failure ∧
    colorToStatus "yellow" = JobStatus.unstable ∧
    colorToStatus "aborted" = JobStatus.aborted ∧
    colorToStatus "notbuilt" = JobStatus.not_built ∧
    colorToStatus "disabled" = JobStatus.not_built ∧
    colorToStatus "" = JobStatus.unknown ∧
    (∀ c : String, endsWithStr c "_anime" = false →
      replaceFirst c "_anime" "" ∉
        (["blue", "red", "yellow", "aborted", "notbuilt", "disabled"] : List String) →
      colorToStatus c = JobStatus.unknown) ∧
    (∀ c : String, colorToStatus c ∈
      [JobStatus.success, JobStatus.failure, JobStatus.unstable, JobStatus.aborted,
       JobStatus.not_built, JobStatus.building, JobStatus.unknown]) := by
  refine ⟨?_, by decide, by decide, by decide, by decide, by decide, by decide, by decide,
    ?_, ?_⟩
  · intro c
    have hne : c ++ "_anime" ≠ "" := by
      intro h
      have h2 := congrArg String.length h
      rw [String.length_append] at h2
      have h3 : ("_anime" : String).length = 6 := rfl
      have h4 : ("" : String).length = 0 := rfl
      omega
    have hsfx : endsWithStr (c ++ "_anime") "_anime" = true := by
      simp only [endsWithStr, String.data_append, List.isSuffixOf_iff_suffix]
      exact List.suffix_append _ _
    simp [colorToStatus, hne, hsfx]
  · intro c h1 h2
    by_cases hc : c = ""
    · subst hc; decide
    · simp only [colorToStatus, if_neg hc, h1]
      generalize hbc : replaceFirst c "_anime" "" = bc at h2
      simp only [List.mem_cons, List.not_mem_nil, or_false, not_or] at h2
      split <;> simp_all
  · intro c
    cases h : colorToStatus c <;> simp

/-- Witness for C4: the suffix rule applied at base color `grey`, and the
unrecognized-token rule applied at `purple`. -/
theorem C4_status_classifier_witness :
    colorToStatus "grey_anime" = JobStatus.building ∧
    colorToStatus "purple" = JobStatus.unknown :=
  ⟨C4_status_classifier.1 "grey",
   C4_status_classifier.2.2.2.2.2.2.2.2.1 "purple" (by decide) (by decide)⟩

/-! ## Build comparison (`JenkinsClient.compareBuilds`) -/

/-- `JenkinsBuild` from `types.ts`: JS numbers are modelled as `Int`
(timestamps and durations are integral epoch milliseconds), the nullable
`result` as `Option String`. -/
structure JenkinsBuild where
  number : Int
  url : String
  result : Option String
  timestamp : Int
  duration : Int
  displayName : String
deriving DecidableEq, Repr

/-- The per-build record embedded in `BuildComparison` (`types.ts`).  The
source stores `new Date(timestamp).toISOString()`; ISO conversion is
injective and order preserving on epoch milliseconds, so the model keeps the
raw value. -/
structure ComparedBuild where
  number : Int
  result : Option String
  timestamp : Int
  duration : Int
deriving DecidableEq, Repr

/-- The `changes` record of `BuildComparison` (`types.ts`); the percentage is
a JS number, modelled as `Rat`. -/
structure BuildChanges where
  resultChanged : Bool
  durationDiff : Int
  durationDiffPercent : Rat
deriving DecidableEq, Repr

/-- `BuildComparison` from `types.ts`. -/
structure BuildComparison where
  build1 : ComparedBuild
  build2 : ComparedBuild
  changes : BuildChanges
deriving DecidableEq, Repr

/-- JS `Math.round`: nearest integer, ties toward positive infinity. -/
def jsMathRound (q : Rat) : Int :=
  Int.floor (q + 1 / 2)

/-- The response-shaping core of `JenkinsClient.compareBuilds`
(jenkins-client, lines 868-911), applied to the two fetched builds. -/
def compareBuilds (build1 build2 : JenkinsBuild) : BuildComparison :=
  let durationDiff := build2.duration - build1.duration
  let durationDiffPercent : Rat :=
    if 0 < build1.duration then ((durationDiff : Rat) / (build1.duration : Rat)) * 100 else 0
  { build1 := { number := build1.number, result := build1.result,
                timestamp := build1.timestamp, duration := build1.duration }
    build2 := { number := build2.number, result := build2.result,
                timestamp := build2.timestamp, duration := build2.duration }
    changes := { resultChanged := build1.result != build2.result
                 durationDiff := durationDiff
                 durationDiffPercent := (jsMathRound (durationDiffPercent * 10) : Rat) / 10 } }

/-- C5: the comparison reports `durationDiff = build2.duration - build1.duration`,
a zero percentage whenever the first build has zero duration, and
`resultChanged` exactly when the (nullable) results differ. -/
theorem C5_compare_builds (b1 b2 : JenkinsBuild) :
    (compareBuilds b1 b2).changes.durationDiff = b2.duration - b1.duration ∧
    (b1.duration = 0 → (compareBuilds b1 b2).changes.durationDiffPercent = 0) ∧
    ((compareBuilds b1 b2).changes.resultChanged = true ↔ b1.result ≠ b2.result) := by
  refine ⟨rfl, ?_, ?_⟩
  · intro h
    simp only [compareBuilds, h]
    norm_num [jsMathRound]
  · simp [compareBuilds, bne_iff_ne]

/-- Witness for C5 at two concrete builds, the first of zero duration. -/
theorem C5_compare_builds_witness :
    (compareBuilds
        { number := 1, url := "u1", result := some "SUCCESS", timestamp := 1000,
          duration := 0, displayName := "#1" }
        { number := 2, url := "u2", result := some "FAILURE", timestamp := 2000,
          duration := 150, displayName := "#2" }).changes.durationDiff = 150 - 0 ∧
    (compareBuilds
        { number := 1, url := "u1", result := some "SUCCESS", timestamp := 1000,
          duration := 0, displayName := "#1" }
        { number := 2, url := "u2", result := some "FAILURE", timestamp := 2000,
          duration := 150, displayName := "#2" }).changes.durationDiffPercent = 0 := by
  have h := C5_compare_builds
    { number := 1, url := "u1", result := some "SUCCESS", timestamp := 1000,
      duration := 0, displayName := "#1" }
    { number := 2, url := "u2", result := some "FAILURE", timestamp := 2000,
      duration := 150, displayName := "#2" }
  exact ⟨h.1, h.2.1 rfl⟩

/-! ## Node status (`JenkinsClient.getNodeStatus`) -/

/-- The classified agent status vocabulary of `NodeStatus` in `types.ts`. -/
inductive NodeStatusKind where
  | online
  | offline
  | temporarily_offline
deriving DecidableEq, Repr

/-- `JenkinsNode` from `types.ts` (the upstream `computer` record). -/
structure JenkinsNode where
  displayName : String
  description : String
  offline : Bool
  offlineCauseReason : Option String
  temporarilyOffline : Bool
  numExecutors : Int
  idle : Bool
deriving DecidableEq, Repr

/-- One entry of `NodeStatus.nodes` in `types.ts`. -/
structure NodeEntry where
  name : String
  status : NodeStatusKind
  executors : Int
  idle : Bool
  offlineReason : Option String
deriving DecidableEq, Repr

/-- The aggregate `NodeStatus` record from `types.ts`. -/
structure NodeStatus where
  totalNodes : Nat
  onlineNodes : Nat
  offlineNodes : Nat
  nodes : List NodeEntry
deriving DecidableEq, Repr

/-- The per-node mapping inside `JenkinsClient.getNodeStatus`: offline agents
with the temporarily-offline flag are `temporarily_offline`, other offline
agents are `offline`, the rest are `online`. -/
def nodeEntryOf (node : JenkinsNode) : NodeEntry :=
  let status :=
    if node.offline then
      if node.temporarilyOffline then NodeStatusKind.temporarily_offline
      else NodeStatusKind.offline
    else NodeStatusKind.online
  { name := node.displayName, status := status, executors := node.numExecutors,
    idle := node.idle, offlineReason := node.offlineCauseReason }

/-- The response-shaping core of `JenkinsClient.getNodeStatus`
(jenkins-client, lines 824-863), applied to the fetched `computer` list. -/
def getNodeStatus (computer : List JenkinsNode) : NodeStatus :=
  let nodes := computer.map nodeEntryOf
  let onlineNodes := (nodes.filter (fun n => n.status == NodeStatusKind.online)).length
  let offlineNodes := (nodes.filter (fun n => n.status != NodeStatusKind.online)).length
  { totalNodes := nodes.length, onlineNodes := onlineNodes,
    offlineNodes := offlineNodes, nodes := nodes }

/-- A list splits into the entries satisfying a Bool predicate and those
falsifying it. -/
theorem length_filter_add_length_filter_not (p : α → Bool) (l : List α) :
    (l.filter p).length + (l.filter (fun a => !(p a))).length = l.length := by
  induction l with
  | nil => rfl
  | cons a l ih =>
    cases h : p a <;> simp [List.filter_cons, h, ← ih] <;> omega

/-- C10: the node-status aggregate always satisfies
`totalNodes = onlineNodes + offlineNodes`, where `offlineNodes` counts every
node whose classified status is not `online` — that is, both `offline` and
`temporarily_offline` agents. -/
theorem C10_node_counts (computer : List JenkinsNode) :
    (getNodeStatus computer).totalNodes =
      (getNodeStatus computer).onlineNodes + (getNodeStatus computer).offlineNodes ∧
    (getNodeStatus computer).offlineNodes =
      ((getNodeStatus computer).nodes.filter
        (fun n => n.status == NodeStatusKind.offline ||
                  n.status == NodeStatusKind.temporarily_offline)).length := by
  constructor
  · have h := length_filter_add_length_filter_not
      (fun n : NodeEntry => n.status == NodeStatusKind.online) (computer.map nodeEntryOf)
    simp only [getNodeStatus]
    have hsame : ∀ n : NodeEntry, (!(n.status == NodeStatusKind.online)) =
        (n.status != NodeStatusKind.online) := by
      intro n; rfl
    simp only [hsame] at h
    omega
  · simp only [getNodeStatus]
    have : ∀ n : NodeEntry, (n.status != NodeStatusKind.online) =
        (n.status == NodeStatusKind.offline ||
         n.status == NodeStatusKind.temporarily_offline) := by
      intro n; cases n.status <;> rfl
    rw [List.filter_congr (fun n _ => this n)]

/-! ## Error normalization of the API client -/

/-- The information each `catch` block inspects about a failed HTTP call:
the optional upstream status (`err.response?.status`) and the transport
error message (`err.message`, surfaced through `extractSafeError`). -/
structure UpstreamFailure where
  status : Option Nat
  message : String
deriving DecidableEq, Repr

/-- The generic remediation hint thrown on HTTP 401 by the operations that
special-case it. -/
def authFailedMessage : String :=
  "Authentication failed. Please check JENKINS_USERNAME and JENKINS_API_TOKEN."

/-- Error message of `JenkinsClient.listJobs` (lines 351-367): a single
catch-all, no status special-casing. -/
def listJobsErrorMessage (e : UpstreamFailure) : String :=
  "Failed to list jobs: " ++ e.message

/-- Error message of `JenkinsClient.getJobStatus` (lines 369-401). -/
def getJobStatusErrorMessage (jobName : String) (e : UpstreamFailure) : String :=
  if e.status = some 404 then "Job not found: " ++ jobName
  else if e.status = some 401 then authFailedMessage
  else if e.status = some 403 then
    "Access forbidden for job " ++ jobName ++ ". User may not have permission."
  else "Failed to get job status: " ++ e.message

/-- Error message of `JenkinsClient.getBuildDetails` (lines 403-441). -/
def getBuildDetailsErrorMessage (jobName : String) (buildNumber : Int)
    (e : UpstreamFailure) : String :=
  if e.status = some 404 then
    "Build #" ++ toString buildNumber ++ " not found for job: " ++ jobName
  else if e.status = some 401 then authFailedMessage
  else if e.status = some 403 then
    "Access forbidden for job " ++ jobName ++ ". User may not have permission."
  else "Failed to get build details: " ++ e.message

/-- Error message of `JenkinsClient.getLatestBuild` (lines 443-479). -/
def getLatestBuildErrorMessage (jobName : String) (e : UpstreamFailure) : String :=
  if e.status = some 404 then "Job not found: " ++ jobName
  else if e.status = some 401 then authFailedMessage
  else if e.status = some 403 then
    "Access forbidden for job " ++ jobName ++ ". User may not have permission."
  else "Failed to get latest build: " ++ e.message

/-- Error message of `JenkinsClient.getBuildConsoleOutput` (lines 481-520). -/
def getBuildConsoleOutputErrorMessage (jobName : String) (buildNumber : Int)
    (e : UpstreamFailure) : String :=
  if e.status = some 404 then
    "Build #" ++ toString buildNumber ++ " not found for job: " ++ jobName
  else if e.status = some 401 then authFailedMessage
  else if e.status = some 403 then
    "Access forbidden for job " ++ jobName ++ ". User may not have permission."
  else "Failed to get console output: " ++ e.message

/-- Error message of `JenkinsClient.listJobsSummary` (lines 546-570): a
single catch-all (it reuses the `Failed to list jobs` text). -/
def listJobsSummaryErrorMessage (e : UpstreamFailure) : String :=
  "Failed to list jobs: " ++ e.message

/-- Error message of `JenkinsClient.getFailedJobs` (lines 576-621): a single
catch-all. -/
def getFailedJobsErrorMessage (e : UpstreamFailure) : String :=
  "Failed to get failed jobs: " ++ e.message

/-- Error message of `JenkinsClient.getTestResults` (lines 654-711): only
404 is special-cased; every other failure, including 401, falls to the
catch-all. -/
def getTestResultsErrorMessage (jobName : String) (buildNumber : Int)
    (e : UpstreamFailure) : String :=
  if e.status = some 404 then
    "No test results found for " ++ jobName ++ " #" ++ toString buildNumber ++
      ". The build may not have run tests."
  else "Failed to get test results: " ++ e.message

/-- Error message of `JenkinsClient.getPipelineStages` (lines 716-765): only
404 is special-cased. -/
def getPipelineStagesErrorMessage (jobName : String) (buildNumber : Int)
    (e : UpstreamFailure) : String :=
  if e.status = some 404 then
    "No pipeline info found for " ++ jobName ++ " #" ++ toString buildNumber ++
      ". This may not be a Pipeline job."
  else "Failed to get pipeline stages: " ++ e.message

/-- Error message of `JenkinsClient.getBuildQueueStatus` (lines 770-797). -/
def getBuildQueueStatusErrorMessage (e : UpstreamFailure) : String :=
  "Failed to get build queue: " ++ e.message

/-- Error message of `JenkinsClient.getNodeStatus` (lines 824-863). -/
def getNodeStatusErrorMessage (e : UpstreamFailure) : String :=
  "Failed to get node status: " ++ e.message

/-- Error message of `JenkinsClient.searchJobs` (lines 802-819). -/
def searchJobsErrorMessage (e : UpstreamFailure) : String :=
  "Failed to search jobs: " ++ e.message

/-- Error message of `JenkinsClient.compareBuilds` (lines 868-911). -/
def compareBuildsErrorMessage (e : UpstreamFailure) : String :=
  "Failed to compare builds: " ++ e.message

/-- The query operations of the API client, with the arguments their error
messages mention. -/
inductive ClientQuery where
  | listJobs
  | getJobStatus (jobName : String)
  | getBuildDetails (jobName : String) (buildNumber : Int)
  | getLatestBuild (jobName : String)
  | getBuildConsoleOutput (jobName : String) (buildNumber : Int)
  | listJobsSummary
  | getFailedJobs
  | getTestResults (jobName : String) (buildNumber : Int)
  | getPipelineStages (jobName : String) (buildNumber : Int)
  | getBuildQueueStatus
  | getNodeStatus
  | searchJobs (pattern : String)
  | compareBuilds (jobName : String) (buildNumber1 buildNumber2 : Int)
deriving DecidableEq, Repr

/-- The message each query operation surfaces for an upstream failure,
dispatching to the per-operation `catch` logic above. -/
def clientErrorMessage : ClientQuery → UpstreamFailure → String
  | ClientQuery.listJobs, e => listJobsErrorMessage e
  | ClientQuery.getJobStatus j, e => getJobStatusErrorMessage j e
  | ClientQuery.getBuildDetails j n, e => getBuildDetailsErrorMessage j n e
  | ClientQuery.getLatestBuild j, e => getLatestBuildErrorMessage j e
  | ClientQuery.getBuildConsoleOutput j n, e => getBuildConsoleOutputErrorMessage j n e
  | ClientQuery.listJobsSummary, e => listJobsSummaryErrorMessage e
  | ClientQuery.getFailedJobs, e => getFailedJobsErrorMessage e
  | ClientQuery.getTestResults j n, e => getTestResultsErrorMessage j n e
  | ClientQuery.getPipelineStages j n, e => getPipelineStagesErrorMessage j n e
  | ClientQuery.getBuildQueueStatus, e => getBuildQueueStatusErrorMessage e
  | ClientQuery.getNodeStatus, e => getNodeStatusErrorMessage e
  | ClientQuery.searchJobs _, e => searchJobsErrorMessage e
  | ClientQuery.compareBuilds _ _ _, e => compareBuildsErrorMessage e

/-- C2 counterexample: the `listJobs` query surfaces the catch-all message
for an HTTP 401 failure instead of the Unauthenticated remediation hint. -/
theorem C2_counterexample :
    (⟨some 401, "Request failed with status code 401"⟩ : UpstreamFailure).status
        = some 401 ∧
    clientErrorMessage ClientQuery.listJobs
        ⟨some 401, "Request failed with status code 401"⟩ =
      "Failed to list jobs: Request failed with status code 401" ∧
    clientErrorMessage ClientQuery.listJobs
        ⟨some 401, "Request failed with status code 401"⟩ ≠ authFailedMessage := by
  refine ⟨rfl, rfl, ?_⟩
  decide

/-- C2 (amended): on HTTP 401, exactly the job-status, build-details,
latest-build and console-output queries surface the Unauthenticated
remediation hint; every other query operation surfaces its catch-all
upstream-error message. -/
theorem C2_amended_401 (q : ClientQuery) (e : UpstreamFailure)
    (h : e.status = some 401) :
    clientErrorMessage q e =
      match q with
      | ClientQuery.getJobStatus _ => authFailedMessage
      | ClientQuery.getBuildDetails _ _ => authFailedMessage
      | ClientQuery.getLatestBuild _ => authFailedMessage
      | ClientQuery.getBuildConsoleOutput _ _ => authFailedMessage
      | ClientQuery.listJobs => "Failed to list jobs: " ++ e.message
      | ClientQuery.listJobsSummary => "Failed to list jobs: " ++ e.message
      | ClientQuery.getFailedJobs => "Failed to get failed jobs: " ++ e.message
      | ClientQuery.getTestResults _ _ => "Failed to get test results: " ++ e.message
      | ClientQuery.getPipelineStages _ _ => "Failed to get pipeline stages: " ++ e.message
      | ClientQuery.getBuildQueueStatus => "Failed to get build queue: " ++ e.message
      | ClientQuery.getNodeStatus => "Failed to get node status: " ++ e.message
      | ClientQuery.searchJobs _ => "Failed to search jobs: " ++ e.message
      | ClientQuery.compareBuilds _ _ _ => "Failed to compare builds: " ++ e.message := by
  cases q <;>
    simp [clientErrorMessage, listJobsErrorMessage, getJobStatusErrorMessage,
      getBuildDetailsErrorMessage, getLatestBuildErrorMessage,
      getBuildConsoleOutputErrorMessage, listJobsSummaryErrorMessage,
      getFailedJobsErrorMessage, getTestResultsErrorMessage,
      getPipelineStagesErrorMessage, getBuildQueueStatusErrorMessage,
      getNodeStatusErrorMessage, searchJobsErrorMessage,
      compareBuildsErrorMessage, h]

/-- Witness for the amended C2: a concrete 401 failure through
`getJobStatus` (hint reported) and through `listJobs` (catch-all reported). -/
theorem C2_amended_401_witness :
    clientErrorMessage (ClientQuery.getJobStatus "app") ⟨some 401, "boom"⟩ =
      authFailedMessage ∧
    clientErrorMessage ClientQuery.listJobs ⟨some 401, "boom"⟩ =
      "Failed to list jobs: " ++ "boom" :=
  ⟨C2_amended_401 (ClientQuery.getJobStatus "app") ⟨some 401, "boom"⟩ rfl,
   C2_amended_401 ClientQuery.listJobs ⟨some 401, "boom"⟩ rfl⟩

/-! ## Job search (`JenkinsClient.searchJobs`)

The source builds `new RegExp("^" + pattern.replace(/\*/g, ".*").replace(/\?/g, ".") + "$", "i")`
and filters job names with `regex.test`.  For patterns made of regex-literal
characters and the tokens `*`, `?` and `.`, the compiled anchored
case-insensitive regex is embedded below as a direct matcher: `*` becomes
`.*` (any run of characters), `?` becomes `.` (any single character), a
pattern character `.` is left unescaped and therefore also matches any
single character, and literal characters compare case-insensitively. -/

/-- One token of the compiled search regex. -/
inductive GlobTok where
  | star
  | anyc
  | lit (c : Char)
deriving DecidableEq, Repr

/-- Case-insensitive character comparison (the `i` regex flag). -/
def charEqCI (c d : Char) : Bool :=
  c.toLower == d.toLower

/-- Try `f` on every suffix of the input: the backtracking search of `.*`. -/
def matchStar (f : List Char → Bool) : List Char → Bool
  | [] => f []
  | c :: s => f (c :: s) || matchStar f s

/-- Anchored matching of a token list against a character list. -/
def globMatch : List GlobTok → List Char → Bool
  | [], s => s.isEmpty
  | GlobTok.anyc :: _, [] => false
  | GlobTok.anyc :: ps, _ :: s => globMatch ps s
  | GlobTok.lit _ :: _, [] => false
  | GlobTok.lit c :: ps, d :: s => charEqCI c d && globMatch ps s
  | GlobTok.star :: ps, s => matchStar (fun t => globMatch ps t) s

/-- Tokenization of the search pattern as compiled by `searchJobs`
(jenkins-client, lines 802-819): `*` and `?` are rewritten to `.*` and `.`,
all other characters are passed through unescaped, so a pattern `.` is an
any-character metacharacter in the compiled regex.  The embedding covers
patterns made of regex-literal characters and the metacharacters `*`, `?`
and `.` only: the source leaves the remaining regex special characters
(backslash, `^`, `$`, `|`, `+`, parentheses, square brackets, curly braces)
unescaped as well, where they keep their full regex semantics — or make the
pattern an invalid regex, which raises the InvalidInput error — and neither
behaviour is modelled here; the theorems below quantify only over patterns
inside the covered fragment. -/
def parseGlob (pat : String) : List GlobTok :=
  pat.data.map (fun c =>
    if c = '*' then GlobTok.star
    else if c = '?' then GlobTok.anyc
    else if c = '.' then GlobTok.anyc
    else GlobTok.lit c)

/-- The characters that stand for themselves in a JS regular expression:
everything except the special characters backslash, `^`, `$`, `.`, `|`,
`?`, `*`, `+`, parentheses, square brackets and curly braces.  A pattern
built from these characters is compiled by `searchJobs` into a regex that
matches it literally (and case-insensitively). -/
def regexLiteralChar (c : Char) : Bool :=
  decide (c ∉ ['\\', '^', '$', '.', '|', '?', '*', '+', '(', ')', '[', ']',
    '\x7b', '\x7d'])

/-- `regex.test(job.name)` for the compiled pattern. -/
def jobMatchesPattern (pat name : String) : Bool :=
  globMatch (parseGlob pat) name.data

/-- `JobSummary` from `types.ts`. -/
structure JobSummary where
  name : String
  url : String
  status : JobStatus
  lastBuildNumber : Option Int
  lastBuildTime : Option String
deriving DecidableEq, Repr

/-- The filtering core of `JenkinsClient.searchJobs`, applied to the job
summaries fetched by `listJobsSummary`. -/
def searchJobs (allJobs : List JobSummary) (pat : String) : List JobSummary :=
  allJobs.filter (fun job => jobMatchesPattern pat job.name)

/-- A token list of bare literals matches exactly the strings that agree
with the pattern letter by letter up to case — anchored at both ends. -/
theorem globMatch_all_lit (l : List Char) :
    ∀ s : List Char,
      (globMatch (l.map GlobTok.lit) s = true ↔
        s.map Char.toLower = l.map Char.toLower) := by
  induction l with
  | nil =>
    intro s
    cases s <;> simp [globMatch]
  | cons c l ih =>
    intro s
    cases s with
    | nil => simp [globMatch]
    | cons d s =>
      simp only [List.map_cons, globMatch, Bool.and_eq_true, ih s, List.cons.injEq,
        charEqCI, beq_iff_eq]
      constructor
      · rintro ⟨h1, h2⟩; exact ⟨h1.symm, h2⟩
      · rintro ⟨h1, h2⟩; exact ⟨h1.symm, h2⟩

/-- C8: the job-search glob is anchored and case-insensitive: `cfg-*`
matches `cfg-deploy-1` but not `xcfg-deploy-1`, `a?c` matches `abc` but not
`abbc`; the search operation keeps exactly the jobs whose name matches; and
a pattern built only from regex-literal characters (none of the regex
special characters, in particular no wildcard `*` or `?`) matches precisely
the names equal to it up to case, over their full length. -/
theorem C8_search_jobs_glob :
    jobMatchesPattern "cfg-*" "cfg-deploy-1" = true ∧
    jobMatchesPattern "cfg-*" "xcfg-deploy-1" = false ∧
    jobMatchesPattern "a?c" "abc" = true ∧
    jobMatchesPattern "a?c" "abbc" = false ∧
    (∀ (allJobs : List JobSummary) (pat : String) (j : JobSummary),
      j ∈ searchJobs allJobs pat ↔ j ∈ allJobs ∧ jobMatchesPattern pat j.name = true) ∧
    (∀ pat s : String, (∀ c ∈ pat.data, regexLiteralChar c = true) →
      (jobMatchesPattern pat s = true ↔
        s.data.map Char.toLower = pat.data.map Char.toLower)) := by
  refine ⟨by decide, by decide, by decide, by decide, ?_, ?_⟩
  · intro allJobs pat j
    simp [searchJobs, List.mem_filter]
  · intro pat s h
    have hparse : parseGlob pat = pat.data.map GlobTok.lit := by
      apply List.map_congr_left
      intro c hc
      have h2 := h c hc
      simp only [regexLiteralChar, decide_eq_true_eq, List.mem_cons,
        List.not_mem_nil, or_false, not_or] at h2
      obtain ⟨-, -, -, hdot, -, hq, hstar, -⟩ := h2
      simp [hstar, hq, hdot]
    rw [jobMatchesPattern, hparse]
    exact globMatch_all_lit pat.data s.data

/-- Witness for C8: the literal-pattern characterization applied at pattern
`abc` and name `ABC`. -/
theorem C8_search_jobs_glob_witness :
    jobMatchesPattern "abc" "ABC" = true ↔
      "ABC".data.map Char.toLower = "abc".data.map Char.toLower :=
  C8_search_jobs_glob.2.2.2.2.2 "abc" "ABC" (by decide)

/-- C9: regex metacharacters other than `*` and `?` are not escaped before
the pattern is compiled, so the pattern `a.c` — which contains neither `*`
nor `?` — matches the job name `axc`, a name different from the pattern. -/
theorem C9_unescaped_metacharacters :
    jobMatchesPattern "a.c" "axc" = true ∧
    ("a.c" : String) ≠ "axc" ∧
    '*' ∉ ("a.c" : String).data ∧
    '?' ∉ ("a.c" : String).data := by
  decide

/-! ## Failed-jobs query (`JenkinsClient.getFailedJobs`) -/

/-- One entry of the `builds[...]{0,10}` list fetched per job. -/
structure RecentBuild where
  number : Int
  url : String
  result : Option String
  timestamp : Int
  duration : Int
deriving DecidableEq, Repr

/-- `JenkinsJobWithBuilds` from `types.ts`; the `builds` field is optional
(`if (!job.builds) continue`). -/
structure JenkinsJobWithBuilds where
  name : String
  url : String
  color : String
  builds : Option (List RecentBuild)
deriving DecidableEq, Repr

/-- `FailedJobInfo` from `types.ts`.  The source stores
`new Date(build.timestamp).toISOString()` and its sort comparator parses it
back with `new Date(...).getTime()`; that round-trip is the identity on
epoch milliseconds, so the model keeps the raw value. -/
structure FailedJobInfo where
  name : String
  url : String
  buildNumber : Int
  buildUrl : String
  timestamp : Int
  duration : Int
  result : Option String
deriving DecidableEq, Repr

/-- The per-build inclusion test of `getFailedJobs`:
`build.timestamp >= cutoffTime && (build.result === "FAILURE" || build.result === "UNSTABLE")`. -/
def failedBuildFilter (cutoffTime : Int) (b : RecentBuild) : Bool :=
  decide (cutoffTime ≤ b.timestamp) &&
    (b.result == some "FAILURE" || b.result == some "UNSTABLE")

/-- The record pushed onto `failedJobs` for a retained build. -/
def failedJobInfoOf (job : JenkinsJobWithBuilds) (b : RecentBuild) : FailedJobInfo :=
  { name := job.name, url := job.url, buildNumber := b.number, buildUrl := b.url,
    timestamp := b.timestamp, duration := b.duration, result := b.result }

/-- The retained entries of one job, in build order (empty when the job has
no `builds` field). -/
def jobFailedEntries (cutoffTime : Int) (job : JenkinsJobWithBuilds) :
    List FailedJobInfo :=
  match job.builds with
  | none => []
  | some bs => (bs.filter (failedBuildFilter cutoffTime)).map (failedJobInfoOf job)

/-- The shaping core of `JenkinsClient.getFailedJobs` (jenkins-client, lines
576-621): cutoff at `now - hoursAgo` hours, keep failing/unstable builds in
the window, flatten across jobs, sort by timestamp descending. -/
def getFailedJobs (now hoursAgo : Int) (jobs : List JenkinsJobWithBuilds) :
    List FailedJobInfo :=
  let cutoffTime := now - hoursAgo * 60 * 60 * 1000
  let failedJobs := jobs.flatMap (jobFailedEntries cutoffTime)
  failedJobs.mergeSort (fun a b => decide (b.timestamp ≤ a.timestamp))

/-- Membership in the retained entries of one job, unfolded. -/
theorem mem_jobFailedEntries (cutoffTime : Int) (job : JenkinsJobWithBuilds)
    (f : FailedJobInfo) :
    f ∈ jobFailedEntries cutoffTime job ↔
      ∃ bs, job.builds = some bs ∧ ∃ b ∈ bs,
        cutoffTime ≤ b.timestamp ∧
        (b.result = some "FAILURE" ∨ b.result = some "UNSTABLE") ∧
        f = failedJobInfoOf job b := by
  cases h : job.builds with
  | none => simp [jobFailedEntries, h]
  | some bs =>
    simp only [jobFailedEntries, h, List.mem_map, List.mem_filter,
      failedBuildFilter, Bool.and_eq_true, Bool.or_eq_true, decide_eq_true_eq,
      beq_iff_eq, Option.some.injEq]
    constructor
    · rintro ⟨b, ⟨hb, ht, hr⟩, hf⟩
      exact ⟨bs, rfl, b, hb, ht, by simpa using hr, hf.symm⟩
    · rintro ⟨bs2, hbs, b, hb, ht, hr, hf⟩
      cases hbs
      exact ⟨b, ⟨hb, ht, by simpa using hr⟩, hf.symm⟩

/-- C3: the failed-jobs query returns exactly the builds whose timestamp is
at least `now - hoursAgo*3600000` and whose result is FAILURE or UNSTABLE,
flattened across the batch, and the returned list is sorted non-increasing
by build timestamp. -/
theorem C3_failed_jobs (now hoursAgo : Int) (jobs : List JenkinsJobWithBuilds) :
    (∀ f : FailedJobInfo,
      f ∈ getFailedJobs now hoursAgo jobs ↔
        ∃ job ∈ jobs, ∃ bs, job.builds = some bs ∧ ∃ b ∈ bs,
          now - hoursAgo * 3600000 ≤ b.timestamp ∧
          (b.result = some "FAILURE" ∨ b.result = some "UNSTABLE") ∧
          f = failedJobInfoOf job b) ∧
    (getFailedJobs now hoursAgo jobs).Pairwise
      (fun a b => b.timestamp ≤ a.timestamp) := by
  constructor
  · intro f
    have hperm := List.mergeSort_perm
      (jobs.flatMap (jobFailedEntries (now - hoursAgo * 60 * 60 * 1000)))
      (fun a b : FailedJobInfo => decide (b.timestamp ≤ a.timestamp))
    rw [getFailedJobs, hperm.mem_iff, List.mem_flatMap]
    have h36 : now - hoursAgo * 60 * 60 * 1000 = now - hoursAgo * 3600000 := by ring
    constructor
    · rintro ⟨job, hjob, hf⟩
      rw [mem_jobFailedEntries] at hf
      rcases hf with ⟨bs, hbs, b, hb, ht, hr, hfe⟩
      exact ⟨job, hjob, bs, hbs, b, hb, by omega, hr, hfe⟩
    · rintro ⟨job, hjob, bs, hbs, b, hb, ht, hr, hfe⟩
      refine ⟨job, hjob, ?_⟩
      rw [mem_jobFailedEntries]
      exact ⟨bs, hbs, b, hb, by omega, hr, hfe⟩
  · have hs := @List.sorted_mergeSort FailedJobInfo
      (fun a b : FailedJobInfo => decide (b.timestamp ≤ a.timestamp))
      (fun a b c hab hbc => by
        simp only [decide_eq_true_eq] at *
        omega)
      (fun a b => by
        simp only [Bool.or_eq_true, decide_eq_true_eq]
        omega)
      (jobs.flatMap (jobFailedEntries (now - hoursAgo * 60 * 60 * 1000)))
    rw [getFailedJobs]
    exact hs.imp (fun h => by simpa using h)

/-! ## Console output shaping (`jenkins_get_build_console` handler)

The handler splits the fetched console text at `"\n"` into a line list and
joins pieces back with `"\n"`; the processing below is modelled on the line
list, with `String.intercalate "\n"` as the join. -/

/-- JS `Array.prototype.slice(start, end)`: negative indices count from the
end, indices clamp to the array bounds, and an absent `end` means the array
length. -/
def jsSliceIdx (len : Nat) (i : Int) : Nat :=
  if i < 0 then (max ((len : Int) + i) 0).toNat else (min i (len : Int)).toNat

/-- JS `Array.prototype.slice` on a list. -/
def jsSlice (l : List α) (start : Int) (stop : Option Int) : List α :=
  let s := jsSliceIdx l.length start
  let e := match stop with
    | none => l.length
    | some i => jsSliceIdx l.length i
  (l.take e).drop s

/-- The fixed ceiling `maxLines = 3000` of the console handler
(index.ts, line 404). -/
def maxConsoleLines : Nat := 3000

/-- The default (non-tail) branch of the console handler (index.ts, lines
402-412): middle truncation keeping the first and last `maxLines / 2` lines
around a single truncation marker. -/
def middleTruncate (lines : List String) : String :=
  if lines.length > maxConsoleLines then
    let firstHalf := String.intercalate "\n"
      (jsSlice lines 0 (some ((maxConsoleLines : Int) / 2)))
    let lastHalf := String.intercalate "\n"
      (jsSlice lines (-((maxConsoleLines : Int) / 2)) none)
    firstHalf ++ "\n\n... [" ++ toString (lines.length - maxConsoleLines) ++
      " lines truncated] ...\n\n" ++ lastHalf
  else
    String.intercalate "\n" lines

/-- The whole console-output post-processing of the handler (index.ts, lines
390-412): tail mode when `tailLines` is set and positive (JS truthiness:
`tailLines && tailLines > 0`), middle truncation otherwise. -/
def consoleOutput (lines : List String) (tailLines : Option Int) : String :=
  match tailLines with
  | some n =>
    if 0 < n then
      let tailOutput := String.intercalate "\n" (jsSlice lines (-n) none)
      let skipped : Int := (lines.length : Int) - n
      if 0 < skipped then
        "[Showing last " ++ toString n ++ " of " ++ toString lines.length ++
          " lines (" ++ toString skipped ++ " lines skipped)]\n\n" ++ tailOutput
      else tailOutput
    else middleTruncate lines
  | none => middleTruncate lines

/-- A tail slice `slice(-n)` with `0 < n` is the suffix after dropping
`length - n` elements. -/
theorem jsSlice_neg_none (l : List α) (n : Int) (h : 0 < n) :
    jsSlice l (-n) none = l.drop (l.length - n.toNat) := by
  have hs : jsSliceIdx l.length (-n) = l.length - n.toNat := by
    unfold jsSliceIdx
    rw [if_pos (by omega)]
    omega
  simp only [jsSlice, hs, List.take_length]

/-- C6: with tail mode not requested, a log of more than 3000 lines is
reduced to exactly its first 1500 and last 1500 lines around a single
marker counting the `L - 3000` omitted lines, and a log of at most 3000
lines is returned unchanged. -/
theorem C6_middle_truncation (lines : List String) :
    (lines.length ≤ 3000 →
      consoleOutput lines none = String.intercalate "\n" lines) ∧
    (3000 < lines.length →
      consoleOutput lines none =
        String.intercalate "\n" (lines.take 1500) ++
        "\n\n... [" ++ toString (lines.length - 3000) ++ " lines truncated] ...\n\n" ++
        String.intercalate "\n" (lines.drop (lines.length - 1500))) := by
  have hmax : maxConsoleLines = 3000 := rfl
  constructor
  · intro h
    show middleTruncate lines = _
    rw [middleTruncate, if_neg (by omega)]
  · intro h
    show middleTruncate lines = _
    rw [middleTruncate, if_pos (by omega)]
    have h2 : ((maxConsoleLines : Int) / 2) = 1500 := by norm_num [hmax]
    have hfirst : jsSlice lines 0 (some ((maxConsoleLines : Int) / 2)) =
        lines.take 1500 := by
      rw [h2]
      have hs : jsSliceIdx lines.length 0 = 0 := by
        unfold jsSliceIdx
        rw [if_neg (by omega)]
        omega
      have he : jsSliceIdx lines.length 1500 = 1500 := by
        unfold jsSliceIdx
        rw [if_neg (by omega)]
        omega
      simp only [jsSlice, hs, he, List.drop_zero]
    have hlast : jsSlice lines (-((maxConsoleLines : Int) / 2)) none =
        lines.drop (lines.length - 1500) := by
      rw [h2, jsSlice_neg_none lines 1500 (by omega)]
      congr 1
    rw [hfirst, hlast, hmax]

/-- Witness for C6: a one-line log is unchanged, and a 3001-line log is
truncated to its first and last 1500 lines around the marker. -/
theorem C6_middle_truncation_witness :
    consoleOutput ["hello"] none = String.intercalate "\n" ["hello"] ∧
    consoleOutput (List.replicate 3001 "x") none =
      String.intercalate "\n" ((List.replicate 3001 "x").take 1500) ++
      "\n\n... [" ++ toString ((List.replicate 3001 "x").length - 3000) ++
      " lines truncated] ...\n\n" ++
      String.intercalate "\n"
        ((List.replicate 3001 "x").drop ((List.replicate 3001 "x").length - 1500)) :=
  ⟨(C6_middle_truncation ["hello"]).1 (by decide),
   (C6_middle_truncation (List.replicate 3001 "x")).2
     (by rw [List.length_replicate]; omega)⟩

/-- C7: with a positive `tailLines = n`, the tail slice holds exactly
`min n L` trailing lines; the output is that slice, preceded by the
omitted-count header exactly when `L > n`; with `n ≤ 0` or `tailLines`
unset, tail mode is skipped and middle truncation applies. -/
theorem C7_tail_mode (lines : List String) (n : Int) :
    (0 < n →
      (lines.drop (lines.length - n.toNat)).length = min n.toNat lines.length ∧
      consoleOutput lines (some n) =
        (if n < (lines.length : Int) then
          "[Showing last " ++ toString n ++ " of " ++ toString lines.length ++
            " lines (" ++ toString ((lines.length : Int) - n) ++ " lines skipped)]\n\n" ++
            String.intercalate "\n" (lines.drop (lines.length - n.toNat))
        else String.intercalate "\n" (lines.drop (lines.length - n.toNat)))) ∧
    (n ≤ 0 → consoleOutput lines (some n) = middleTruncate lines) ∧
    consoleOutput lines none = middleTruncate lines := by
  refine ⟨?_, ?_, rfl⟩
  · intro h
    constructor
    · rw [List.length_drop]
      omega
    · show (if 0 < n then _ else _) = _
      rw [if_pos h, jsSlice_neg_none lines n h]
      by_cases hlt : n < (lines.length : Int)
      · rw [if_pos hlt, if_pos (by omega)]
      · rw [if_neg hlt, if_neg (by omega)]
  · intro h
    show (if 0 < n then _ else _) = _
    rw [if_neg (by omega)]

/-- Witness for C7: tail mode on a three-line log with `n = 2`, and the
skipped branch with `n = 0`. -/
theorem C7_tail_mode_witness :
    ((["a", "b", "c"].drop (["a", "b", "c"].length - (2 : Int).toNat)).length =
        min (2 : Int).toNat ["a", "b", "c"].length ∧
      consoleOutput ["a", "b", "c"] (some 2) =
        (if (2 : Int) < ((["a", "b", "c"] : List String).length : Int) then
          "[Showing last " ++ toString (2 : Int) ++ " of " ++
            toString (["a", "b", "c"] : List String).length ++
            " lines (" ++ toString (((["a", "b", "c"] : List String).length : Int) - 2) ++
            " lines skipped)]\n\n" ++
            String.intercalate "\n"
              (["a", "b", "c"].drop (["a", "b", "c"].length - (2 : Int).toNat))
        else
          String.intercalate "\n"
            (["a", "b", "c"].drop (["a", "b", "c"].length - (2 : Int).toNat)))) ∧
    consoleOutput ["a"] (some 0) = middleTruncate ["a"] :=
  ⟨(C7_tail_mode ["a", "b", "c"] 2).1 (by decide),
   (C7_tail_mode ["a"] 0).2.1 (by decide)⟩

/-! ## Console search (`jenkins_search_build_console` handler)

The handler (index.ts, lines 419-488) compiles the supplied pattern into a
case-insensitive regex and scans the line list; the regex test is embedded
as an abstract Boolean predicate on lines.  A match at index `i` emits a
context block over indices `max(0, i - contextLines) .. min(L-1, i + contextLines)`,
records every index of that block in `usedLineRanges`, and a line is skipped
as a match when its own index is already in `usedLineRanges`. -/

/-- One entry of the `matches` array built by the handler. -/
structure ConsoleMatch where
  lineNumber : Nat
  matchedLine : String
  context : List String
deriving DecidableEq, Repr

/-- The context-block index range of a match at (0-based) index `i`:
`startLine = max(0, i - c)` (truncated subtraction) up to
`endLine = min(len - 1, i + c)`, inclusive. -/
def ctxBlockIdxs (len c i : Nat) : List Nat :=
  List.range' (i - c) (min (len - 1) (i + c) + 1 - (i - c))

/-- The scanning loop of the handler: `idxs` enumerates the remaining line
indices, `ms` the matches so far, `used` the `usedLineRanges` set (a list,
queried only for membership); the loop stops once `maxMatches` is reached. -/
def searchLoop (p : String → Bool) (lines : List String) (c maxM : Nat) :
    List Nat → List ConsoleMatch → List Nat → List ConsoleMatch
  | [], ms, _ => ms
  | i :: rest, ms, used =>
    if ms.length < maxM then
      if p (lines.getD i "") && !(used.contains i) then
        let idxs := ctxBlockIdxs lines.length c i
        let block := idxs.map (fun j =>
          (if j = i then ">>> " else "    ") ++ toString (j + 1) ++ ": " ++
            lines.getD j "")
        searchLoop p lines c maxM rest
          (ms ++ [{ lineNumber := i + 1, matchedLine := lines.getD i "",
                    context := block }])
          (used ++ idxs)
      else searchLoop p lines c maxM rest ms used
    else ms

/-- The matches reported by the `jenkins_search_build_console` handler for a
console log `lines`, line predicate `p` (the compiled regex test), context
radius `c` (default 5) and match cap `maxM` (default 50). -/
def searchConsole (lines : List String) (p : String → Bool) (c maxM : Nat) :
    List ConsoleMatch :=
  searchLoop p lines c maxM (List.range lines.length) [] []

/-- Membership of a 1-based line number `j` in the reported context interval
`[ln - c, ln + c]` of a match at 1-based line `ln`, clipped to the log
`[1, totalLines]`. -/
def inReportedInterval (c totalLines ln j : Nat) : Bool :=
  decide (max 1 (ln - c) ≤ j) && decide (j ≤ min totalLines (ln + c))

/-- C1 counterexample: on an eight-line log whose lines 2 and 8 match, with
the default context radius 5 and cap 50, the handler reports both matches,
and line 3 lies in both clipped context intervals — the reported context
blocks overlap. -/
theorem C1_counterexample :
    ((searchConsole ["x", "m", "x", "x", "x", "x", "x", "m"]
        (fun s => s == "m") 5 50).map (fun m => m.lineNumber)) = [2, 8] ∧
    inReportedInterval 5 8 2 3 = true ∧
    inReportedInterval 5 8 8 3 = true := by
  decide

/-- Bridge between 0-based context-block indices and the 1-based clipped
context interval of the claim. -/
theorem mem_ctxBlockIdxs_iff (len c i1 i2 : Nat) (h1 : i1 < len) (h2 : i2 < len) :
    i2 ∈ ctxBlockIdxs len c i1 ↔
      inReportedInterval c len (i1 + 1) (i2 + 1) = true := by
  unfold ctxBlockIdxs inReportedInterval
  rw [List.mem_range']
  simp only [Bool.and_eq_true, decide_eq_true_eq]
  constructor
  · rintro ⟨k, hk, rfl⟩
    omega
  · rintro ⟨ha, hb⟩
    exact ⟨i2 - (i1 - c), by omega, by omega⟩

/-- Invariant of the scanning loop: if every pending index is in range,
every recorded match came from an in-range index whose whole context block
is in `used`, and the matches so far are pairwise non-rematching, then the
final match list is pairwise non-rematching: the matched line of a later
match never lies in the clipped context interval of an earlier match. -/
theorem searchLoop_no_rematch (p : String → Bool) (lines : List String)
    (c maxM : Nat) :
    ∀ (idxs : List Nat) (ms : List ConsoleMatch) (used : List Nat),
      (∀ i ∈ idxs, i < lines.length) →
      (∀ m ∈ ms, ∃ i, i < lines.length ∧ m.lineNumber = i + 1 ∧
        ∀ j ∈ ctxBlockIdxs lines.length c i, j ∈ used) →
      ms.Pairwise (fun m1 m2 =>
        inReportedInterval c lines.length m1.lineNumber m2.lineNumber = false) →
      (searchLoop p lines c maxM idxs ms used).Pairwise (fun m1 m2 =>
        inReportedInterval c lines.length m1.lineNumber m2.lineNumber = false) := by
  intro idxs
  induction idxs with
  | nil =>
    intro ms used _ _ hp
    simpa [searchLoop] using hp
  | cons i rest ih =>
    intro ms used hidx hinv hp
    rw [searchLoop]
    by_cases h1 : ms.length < maxM
    · rw [if_pos h1]
      by_cases h2 : (p (lines.getD i "") && !(used.contains i)) = true
      · rw [if_pos h2]
        have hiLen : i < lines.length := hidx i (List.mem_cons_self i rest)
        have hNotUsed : i ∉ used := by
          have h2b := h2
          simp only [Bool.and_eq_true] at h2b
          simpa using h2b.2
        apply ih
        · intro i2 hi2
          exact hidx i2 (List.mem_cons_of_mem i hi2)
        · intro m hm
          rcases List.mem_append.mp hm with hm1 | hm2
          · rcases hinv m hm1 with ⟨i0, hi0, hln, hsub⟩
            exact ⟨i0, hi0, hln, fun j hj => List.mem_append_left _ (hsub j hj)⟩
          · rw [List.mem_singleton] at hm2
            subst hm2
            exact ⟨i, hiLen, rfl, fun j hj => List.mem_append_right _ hj⟩
        · rw [List.pairwise_append]
          refine ⟨hp, List.pairwise_singleton _ _, ?_⟩
          intro m1 hm1 m2 hm2
          rw [List.mem_singleton] at hm2
          subst hm2
          show inReportedInterval c lines.length m1.lineNumber (i + 1) = false
          rcases hinv m1 hm1 with ⟨i0, hi0, hln, hsub⟩
          by_contra hco
          have htrue : inReportedInterval c lines.length m1.lineNumber (i + 1) = true := by
            cases hval : inReportedInterval c lines.length m1.lineNumber (i + 1)
            · exact absurd hval hco
            · rfl
          rw [hln] at htrue
          have hmem : i ∈ ctxBlockIdxs lines.length c i0 :=
            (mem_ctxBlockIdxs_iff lines.length c i0 i hi0 hiLen).mpr htrue
          exact hNotUsed (hsub i hmem)
      · rw [if_neg h2]
        apply ih
        · intro i2 hi2
          exact hidx i2 (List.mem_cons_of_mem i hi2)
        · exact hinv
        · exact hp
    · rw [if_neg h1]
      exact hp

/-- C1 (amended): for every console log, line predicate, context radius and
match cap, the matched line of any later reported match lies outside the
clipped context interval `[lineNumber - c, lineNumber + c] ∩ [1, L]` of
every earlier reported match (matched lines are never re-matched from
inside a previous context block) — though the context intervals themselves
may overlap, as the counterexample shows. -/
theorem C1_search_no_rematch (lines : List String) (p : String → Bool)
    (c maxM : Nat) :
    (searchConsole lines p c maxM).Pairwise (fun m1 m2 =>
      inReportedInterval c lines.length m1.lineNumber m2.lineNumber = false) := by
  apply searchLoop_no_rematch
  · intro i hi
    exact List.mem_range.mp hi
  · intro m hm
    exact absurd hm (List.not_mem_nil m)
  · exact List.Pairwise.nil
